import Mathlib

/-!
Verification of the stream supervision and recording-rotation engine of the
gazda RTSP streaming server (src/app.py), against its natural-language
specification.  The Python code is shallowly embedded: byte buffers become
`List Nat`, wall-clock times become `Int`, subprocess interaction becomes
explicit state and environment parameters, and each background loop becomes
a pure step function or a fuel-bounded recursion over an environment trace.
-/

set_option maxRecDepth 40000

namespace Gazda

/-! ## Frame freshness gate (RTSPStreamer.get_frame, src/app.py lines 572-579)

State relevant to `get_frame`: the shared frame buffer and the wall-clock
time at which the last frame was published (`last_frame_time`). -/

structure FrameBufState where
  frameBuffer : List Nat
  lastFrameTime : Int
deriving DecidableEq

/-- `get_frame` (src/app.py:572): returns the buffer only when the last
frame was published strictly less than 10 seconds ago and the stored buffer
is non-empty with more than 1000 bytes (Python truthiness of
`self.frame_buffer` plus the explicit length test). -/
def get_frame (s : FrameBufState) (now : Int) : Option (List Nat) :=
  if now - s.lastFrameTime < 10 then
    if s.frameBuffer ≠ [] ∧ s.frameBuffer.length > 1000 then
      some s.frameBuffer
    else none
  else none

/-- The publish step of `_read_frames` (src/app.py:272-276): under the lock
the frame data replaces the buffer and `last_frame_time` is set to the
current wall-clock time. -/
def publishFrame (_s : FrameBufState) (data : List Nat) (t : Int) : FrameBufState :=
  { frameBuffer := data, lastFrameTime := t }

/-- C4: if no frame has been published within the 10-second freshness
window, `get_frame` returns `none` even when a (possibly large) stale
buffer is still in memory; if a frame was published within the window
(publishes always carry more than 1000 bytes, the `_read_frames` guard),
the stored buffer is returned. -/
theorem get_frame_staleness (s : FrameBufState) (now : Int) (data : List Nat) (t : Int) :
    (now - s.lastFrameTime ≥ 10 → get_frame s now = none)
    ∧ (data.length > 1000 → now - t < 10 →
        get_frame (publishFrame s data t) now = some data) := by
  constructor
  · intro h
    unfold get_frame
    rw [if_neg (by omega)]
  · intro hlen hfresh
    have hne : data ≠ [] := by
      intro h
      subst h
      simp at hlen
    unfold get_frame publishFrame
    simp only
    rw [if_pos (by omega), if_pos ⟨hne, hlen⟩]

/-- Witness for C4: a stale 1001-byte buffer is suppressed (published at
time 0, asked at time 50); a fresh publish at time 100 is served at 105. -/
theorem get_frame_staleness_witness :
    get_frame ⟨List.replicate 1001 0, 0⟩ 50 = none
    ∧ get_frame (publishFrame ⟨[], 0⟩ (List.replicate 1001 0) 100) 105
        = some (List.replicate 1001 0) :=
  ⟨(get_frame_staleness ⟨List.replicate 1001 0, 0⟩ 50 [] 0).1 (by decide),
   (get_frame_staleness ⟨[], 0⟩ 105 (List.replicate 1001 0) 100).2
     (by rw [List.length_replicate]; omega) (by decide)⟩

/-! ## Starting a recording (RTSPStreamer.start_recording, src/app.py lines 383-393) -/

structure StreamerFlags where
  streaming : Bool
  recording : Bool
  recordingThread : Bool
deriving DecidableEq

/-- `start_recording` (src/app.py:383): returns `False` immediately when
streaming is not active; otherwise sets the recording flag and launches the
recording loop thread, returning `True`. -/
def start_recording (s : StreamerFlags) : Bool × StreamerFlags :=
  if s.streaming = false then (false, s)
  else (true, { s with recording := true, recordingThread := true })

/-- C9: starting a recording while streaming is not active returns `False`
and leaves the supervisor state unchanged: the recording flag keeps its
value (in particular stays false) and no recording thread is created. -/
theorem start_recording_requires_streaming (s : StreamerFlags)
    (h : s.streaming = false) :
    start_recording s = (false, s)
    ∧ (start_recording s).2.recording = s.recording
    ∧ (start_recording s).2.recordingThread = s.recordingThread := by
  unfold start_recording
  rw [if_pos h]
  exact ⟨rfl, rfl, rfl⟩

/-- Witness for C9 at the all-idle state. -/
theorem start_recording_requires_streaming_witness :
    start_recording ⟨false, false, false⟩ = (false, ⟨false, false, false⟩)
    ∧ (start_recording ⟨false, false, false⟩).2.recording = false
    ∧ (start_recording ⟨false, false, false⟩).2.recordingThread = false :=
  start_recording_requires_streaming ⟨false, false, false⟩ rfl

/-! ## The health-monitor tick (RTSPStreamer._monitor_health, src/app.py lines 294-381)

One iteration of the `while self.streaming:` loop body.  The stats block
(lines 362-375) never touches the restart logic and is omitted.
`ffmpegSet` models `self.ffmpeg_process is not None`; `ffmpegRunning`
models `self.ffmpeg_process.poll() is None` (subprocess still alive). -/

structure HealthState where
  lastFrameTime : Int
  lastFrameWarningTime : Int
  ffmpegSet : Bool
  ffmpegRunning : Bool
  restartCount : Nat
deriving DecidableEq

/-- One tick of `_monitor_health` (src/app.py:300-377).  The first branch
(`if self.last_frame_time > 0`) handles timeout-based warnings and the
stuck-process restart (which requires `poll() is None`, i.e. the process
is still running); the `elif` branch (line 345) handles a crashed process,
and is reachable only when `last_frame_time` is 0.  A restart calls
`start_ffmpeg_process`, which spawns a fresh (running) subprocess. -/
def monitorHealthTick (s : HealthState) (now : Int) : HealthState :=
  if s.lastFrameTime > 0 then
    let timeSinceLastFrame := now - s.lastFrameTime
    let s1 :=
      if timeSinceLastFrame > 30 ∧ now - s.lastFrameWarningTime > 60 then
        { s with lastFrameWarningTime := now }
      else s
    if timeSinceLastFrame > 60 then
      if s1.ffmpegSet ∧ s1.ffmpegRunning then
        -- terminate/kill the stuck process, restart_count += 1,
        -- start_ffmpeg_process(), reset the frame-time trackers
        { s1 with
          ffmpegRunning := true
          restartCount := s1.restartCount + 1
          lastFrameTime := 0
          lastFrameWarningTime := 0 }
      else s1
    else s1
  else
    if s.ffmpegSet ∧ s.ffmpegRunning = false then
      -- crash branch: restart_count += 1, start_ffmpeg_process()
      { s with restartCount := s.restartCount + 1, ffmpegRunning := true }
    else s

/-- C1 (code bug): a state in which frames have been received
(`last_frame_time = 100 > 0`) and the frame-extraction subprocess has
exited while streaming is still on (the monitor loop is running).  The
next health tick — here 900 seconds later, far beyond every timeout —
performs no restart at all: the restart counter stays 0 and no subprocess
is spawned.  The crash-restart branch is the `elif` of
`last_frame_time > 0` and is therefore unreachable, and the stall-restart
branch only acts on a process that is still running. -/
theorem monitor_health_no_restart_after_crash :
    (monitorHealthTick ⟨100, 0, true, false, 0⟩ 1000).restartCount = 0
    ∧ (monitorHealthTick ⟨100, 0, true, false, 0⟩ 1000).ffmpegRunning = false
    ∧ (monitorHealthTick ⟨0, 0, true, false, 0⟩ 1000).restartCount = 1 := by
  refine ⟨?_, ?_, ?_⟩ <;> decide

/-! ## The graceful-shutdown ladders (src/app.py lines 491-527 and 547-558)

The interaction with the subprocess is modelled as the sequence of control
actions issued.  A process behaviour says whether the subprocess exits
within the 10-second window after the cooperative quit signal
(`quitWorks`) and within the 5-second window after SIGTERM (`termWorks`);
`stdinOk` is whether writing the `q` byte to the subprocess stdin raises
(the `except` fallback at line 520). -/

inductive StopAction
  | sendQuit
  | wait (seconds : Nat)
  | waitNoTimeout
  | terminate
  | kill
deriving DecidableEq

structure ProcBehavior where
  stdinOk : Bool
  quitWorks : Bool
  termWorks : Bool
deriving DecidableEq

/-- `_stop_recording_gracefully` (src/app.py:491): nothing happens when
there is no live recording subprocess; otherwise send `q` and wait up to
10 s; on timeout terminate and wait up to 5 s; on further timeout kill and
wait unboundedly.  If writing `q` raises, the `except` fallback terminates,
waits up to 5 s and kills on timeout. -/
def stopRecordingGracefully (procSet procAlive : Bool) (b : ProcBehavior) :
    List StopAction :=
  if procSet = false ∨ procAlive = false then []
  else if b.stdinOk then
    [.sendQuit, .wait 10]
      ++ if b.quitWorks then []
         else [.terminate, .wait 5]
           ++ if b.termWorks then [] else [.kill, .waitNoTimeout]
  else
    [.terminate, .wait 5] ++ if b.termWorks then [] else [.kill]

/-- The subprocess-shutdown part of `stop_streaming` (src/app.py:551-558):
if a frame-extraction subprocess object exists, terminate it, wait up to
5 s, and kill it on timeout.  No cooperative quit signal is ever sent. -/
def stopStreamingLadder (procSet : Bool) (b : ProcBehavior) : List StopAction :=
  if procSet = false then []
  else [.terminate, .wait 5] ++ if b.termWorks then [] else [.kill]

/-- C2 counterexample: for a live subprocess that ignores both the quit
signal and SIGTERM, the recording shutdown runs the full three-tier ladder
but the frame-extraction (streaming) shutdown runs a different, two-tier
sequence that never contains the cooperative quit signal — the two paths
do not run the same three-tier escalation. -/
theorem shutdown_ladder_counterexample :
    stopStreamingLadder true ⟨true, false, false⟩
        ≠ stopRecordingGracefully true true ⟨true, false, false⟩
    ∧ StopAction.sendQuit ∉ stopStreamingLadder true ⟨true, false, false⟩
    ∧ stopRecordingGracefully true true ⟨true, false, false⟩
        = [.sendQuit, .wait 10, .terminate, .wait 5, .kill, .waitNoTimeout] := by
  refine ⟨?_, ?_, ?_⟩ <;> decide

/-- C2 (amended): the recording shutdown path runs the three-tier
escalation — quit signal with a 10 s wait always first; terminate (with a
5 s wait) exactly when the quit wait times out; kill exactly when both
earlier waits time out — so each tier is attempted in order and only a
successful wait short-circuits the ladder.  The streaming shutdown path
runs only the last two tiers: it never sends a quit signal, always
terminates, and kills exactly when the terminate wait times out. -/
theorem shutdown_ladder_tiers (b : ProcBehavior) (hstdin : b.stdinOk = true) :
    (stopRecordingGracefully true true b).take 2 = [.sendQuit, .wait 10]
    ∧ (StopAction.terminate ∈ stopRecordingGracefully true true b
        ↔ b.quitWorks = false)
    ∧ (StopAction.kill ∈ stopRecordingGracefully true true b
        ↔ (b.quitWorks = false ∧ b.termWorks = false))
    ∧ StopAction.sendQuit ∉ stopStreamingLadder true b
    ∧ StopAction.terminate ∈ stopStreamingLadder true b
    ∧ (StopAction.kill ∈ stopStreamingLadder true b ↔ b.termWorks = false) := by
  obtain ⟨so, q, t⟩ := b
  cases so
  · cases hstdin
  · cases q <;> cases t <;> refine ⟨?_, ?_, ?_, ?_, ?_, ?_⟩ <;> decide

/-- Witness for C2 at a subprocess that only responds to SIGTERM. -/
theorem shutdown_ladder_tiers_witness :
    (stopRecordingGracefully true true ⟨true, false, true⟩).take 2
        = [.sendQuit, .wait 10]
    ∧ (StopAction.terminate ∈ stopRecordingGracefully true true ⟨true, false, true⟩
        ↔ (false : Bool) = false)
    ∧ (StopAction.kill ∈ stopRecordingGracefully true true ⟨true, false, true⟩
        ↔ ((false : Bool) = false ∧ (true : Bool) = false))
    ∧ StopAction.sendQuit ∉ stopStreamingLadder true ⟨true, false, true⟩
    ∧ StopAction.terminate ∈ stopStreamingLadder true ⟨true, false, true⟩
    ∧ (StopAction.kill ∈ stopStreamingLadder true ⟨true, false, true⟩
        ↔ (true : Bool) = false) :=
  shutdown_ladder_tiers ⟨true, false, true⟩ rfl

/-! ## Supervisor start (initialize_streaming, src/app.py lines 765-798,
and RTSPStreamer.start_streaming, lines 536-545)

Global supervisor state: the `_initialized` flag, whether the global
`streamer` reference is set, and the created streamer's flags.
`connectOk` is whether `RTSPStreamer.connect()` succeeds.  The returned
`Bool` models whether the call started streaming (the guard-skip and the
failure path yield `false`, mirroring the spec's `start() -> bool`). -/

structure AppState where
  initFlag : Bool
  streamerSet : Bool
  streaming : Bool
  recording : Bool
deriving DecidableEq

/-- `initialize_streaming` (src/app.py:765), with `start_streaming`
(line 536) and `start_recording` (line 383) inlined.  Under the
initialization lock: if `_initialized or streamer is not None`, skip.
Otherwise set the flag, create a fresh streamer, and start it:
`start_streaming` sets `streaming = True` before `connect()` and resets it
on failure; on success `start_recording` always succeeds (streaming is
true) and sets `recording = True`.  On failure only `_initialized` is
reset — the `streamer` reference stays set. -/
def initStreaming (s : AppState) (connectOk : Bool) : Bool × AppState :=
  if s.initFlag || s.streamerSet then (false, s)
  else
    let s1 : AppState :=
      { initFlag := true, streamerSet := true, streaming := false, recording := false }
    if connectOk then
      (true, { s1 with streaming := true, recording := true })
    else
      (false, { s1 with initFlag := false })

/-- C3 (code bug): starting from the clean state, a failed start (connect
fails) correctly returns `false` and resets the initialization flag, but
leaves the global `streamer` reference set.  A later start call — even one
whose connect would succeed — hits the `streamer is not None` half of the
guard and returns `false` without doing anything, so the supervisor can
never be started again.  (The double-start guard itself works: after a
successful start a second call returns `false` without side effects.) -/
theorem init_streaming_retry_blocked :
    (initStreaming ⟨false, false, false, false⟩ false).1 = false
    ∧ (initStreaming ⟨false, false, false, false⟩ false).2
        = ⟨false, true, false, false⟩
    ∧ initStreaming ⟨false, true, false, false⟩ true
        = (false, ⟨false, true, false, false⟩)
    ∧ initStreaming ((initStreaming ⟨false, false, false, false⟩ true).2) true
        = (false, (initStreaming ⟨false, false, false, false⟩ true).2) := by
  refine ⟨?_, ?_, ?_, ?_⟩ <;> decide

/-! ## The frame poll loop (RTSPStreamer._read_frames, src/app.py lines 242-292)

A frame artifact on the scratch directory is the digit field of its
filename (ffmpeg writes `frame_%04d.jpg`: zero-padded to a minimum of
four digits, so `0001` .. `9999`, then `10000`, ...) plus the file bytes.
`frame_files.sort()` (line 252) sorts the filename strings
lexicographically by code point, and
`int(latest_frame.split("_")[-1].split(".")[0])` (line 259) parses the
digit field; both are modelled exactly. -/

structure FrameFile where
  name : List Char
  data : List Nat
deriving DecidableEq

/-- Lexicographic (code-point) string comparison, as Python `list.sort`
compares the filename strings. -/
def lexLE : List Char → List Char → Bool
  | [], _ => true
  | _ :: _, [] => false
  | c :: cs, d :: ds =>
    if c.toNat < d.toNat then true
    else if d.toNat < c.toNat then false
    else lexLE cs ds

theorem lexLE_cons (c d : Char) (cs ds : List Char) :
    lexLE (c :: cs) (d :: ds) =
      if c.toNat < d.toNat then true
      else if d.toNat < c.toNat then false
      else lexLE cs ds := rfl

theorem lexLE_cons_iff (c d : Char) (cs ds : List Char) :
    lexLE (c :: cs) (d :: ds) = true ↔
      c.toNat < d.toNat ∨ (c.toNat = d.toNat ∧ lexLE cs ds = true) := by
  rw [lexLE_cons]
  by_cases h1 : c.toNat < d.toNat
  · rw [if_pos h1]
    simp [h1]
  · rw [if_neg h1]
    by_cases h2 : d.toNat < c.toNat
    · rw [if_pos h2]
      constructor
      · intro h
        exact Bool.noConfusion h
      · rintro (h | ⟨h, _⟩)
        · exact absurd h h1
        · exact absurd h2 (by omega)
    · rw [if_neg h2]
      constructor
      · intro h
        exact Or.inr ⟨by omega, h⟩
      · rintro (h | ⟨_, h⟩)
        · exact absurd h h1
        · exact h

theorem lexLE_refl : ∀ (x : List Char), lexLE x x = true := by
  intro x
  induction x with
  | nil => rfl
  | cons c cs ih =>
    rw [lexLE_cons_iff]
    exact Or.inr ⟨rfl, ih⟩

theorem lexLE_total : ∀ (x y : List Char), lexLE x y = true ∨ lexLE y x = true := by
  intro x
  induction x with
  | nil => intro y; exact Or.inl rfl
  | cons c cs ih =>
    intro y
    cases y with
    | nil => exact Or.inr rfl
    | cons d ds =>
      rw [lexLE_cons_iff, lexLE_cons_iff]
      rcases Nat.lt_trichotomy c.toNat d.toNat with h | h | h
      · exact Or.inl (Or.inl h)
      · rcases ih ds with ht | ht
        · exact Or.inl (Or.inr ⟨h, ht⟩)
        · exact Or.inr (Or.inr ⟨h.symm, ht⟩)
      · exact Or.inr (Or.inl h)

theorem lexLE_trans : ∀ (x y z : List Char),
    lexLE x y = true → lexLE y z = true → lexLE x z = true := by
  intro x
  induction x with
  | nil => intro y z _ _; rfl
  | cons c cs ih =>
    intro y z hxy hyz
    cases y with
    | nil => exact Bool.noConfusion hxy
    | cons d ds =>
      cases z with
      | nil => exact Bool.noConfusion hyz
      | cons e es =>
        rw [lexLE_cons_iff] at hxy hyz ⊢
        rcases hxy with h1 | ⟨h1, t1⟩ <;> rcases hyz with h2 | ⟨h2, t2⟩
        · exact Or.inl (by omega)
        · exact Or.inl (by omega)
        · exact Or.inl (by omega)
        · exact Or.inr ⟨by omega, ih ds es t1 t2⟩

theorem lexLE_append_left : ∀ (p x y : List Char),
    lexLE (p ++ x) (p ++ y) = lexLE x y := by
  intro p x y
  induction p with
  | nil => rfl
  | cons c p2 ih =>
    show lexLE (c :: (p2 ++ x)) (c :: (p2 ++ y)) = lexLE x y
    rw [lexLE_cons, if_neg (Nat.lt_irrefl _), if_neg (Nat.lt_irrefl _)]
    exact ih

def frameHead : List Char := ['f', 'r', 'a', 'm', 'e', '_']

def jpgTail : List Char := ['.', 'j', 'p', 'g']

/-- The full filename `frame_<digits>.jpg` of an artifact. -/
def fileName (f : FrameFile) : List Char := frameHead ++ f.name ++ jpgTail

/-- `int(latest_frame.split("_")[-1].split(".")[0])` (src/app.py:259):
the decimal parse of the digit field. -/
def parseNum (ds : List Char) : Nat :=
  ds.foldl (fun n c => n * 10 + (c.toNat - 48)) 0

/-- The sequence number of an artifact, as the code parses it. -/
def fileNum (f : FrameFile) : Nat := parseNum f.name

/-- The filename-string order `frame_files.sort()` uses. -/
def fileLE (a b : FrameFile) : Prop := lexLE (fileName a) (fileName b) = true

instance : DecidableRel fileLE := fun a b =>
  inferInstanceAs (Decidable (lexLE (fileName a) (fileName b) = true))

instance : IsTotal FrameFile fileLE :=
  ⟨fun a b => lexLE_total (fileName a) (fileName b)⟩

instance : IsTrans FrameFile fileLE :=
  ⟨fun a b c h1 h2 => lexLE_trans (fileName a) (fileName b) (fileName c) h1 h2⟩

theorem fileLE_refl (a : FrameFile) : fileLE a a := lexLE_refl (fileName a)

/-- The character of a decimal digit. -/
def digitChar (d : Nat) : Char := Char.ofNat (48 + d)

/-- `"%04d" % n` for `n ≤ 9999`: the 4-digit zero-padded digit field the
extraction subprocess writes for the first 9999 frames. -/
def pad4 (n : Nat) : List Char :=
  [digitChar (n / 1000 % 10), digitChar (n / 100 % 10),
   digitChar (n / 10 % 10), digitChar (n % 10)]

theorem digitChar_toNat : ∀ d, d < 10 → (digitChar d).toNat = 48 + d := by
  decide

/-- A number up to 9999 is the value of its four decimal digits. -/
theorem digit_decomp (j : Nat) (hj : j ≤ 9999) :
    j = 1000 * (j / 1000 % 10) + 100 * (j / 100 % 10)
      + 10 * (j / 10 % 10) + j % 10 := by
  have h1 : 10 * (j / 10) + j % 10 = j := Nat.div_add_mod j 10
  have h2 : 10 * (j / 10 / 10) + j / 10 % 10 = j / 10 := Nat.div_add_mod (j / 10) 10
  have h3 : 10 * (j / 100 / 10) + j / 100 % 10 = j / 100 := Nat.div_add_mod (j / 100) 10
  have e1 : j / 10 / 10 = j / 100 := by rw [Nat.div_div_eq_div_mul]
  have e2 : j / 100 / 10 = j / 1000 := by rw [Nat.div_div_eq_div_mul]
  have h4 : j / 1000 % 10 = j / 1000 := Nat.mod_eq_of_lt (by omega)
  omega

/-- On equal-width (4-digit zero-padded) digit fields, the lexicographic
filename order coincides with the numeric order. -/
theorem lexLE_pad4_iff (j k : Nat) (hj : j ≤ 9999) (hk : k ≤ 9999)
    (s : List Char) :
    lexLE (pad4 j ++ s) (pad4 k ++ s) = true ↔ j ≤ k := by
  have hdj := digit_decomp j hj
  have hdk := digit_decomp k hk
  unfold pad4
  simp only [List.cons_append, List.nil_append]
  rw [lexLE_cons_iff, lexLE_cons_iff, lexLE_cons_iff, lexLE_cons_iff,
    lexLE_refl s]
  simp only [eq_self_iff_true, and_true]
  rw [digitChar_toNat _ (by omega), digitChar_toNat _ (by omega),
    digitChar_toNat _ (by omega), digitChar_toNat _ (by omega),
    digitChar_toNat _ (by omega), digitChar_toNat _ (by omega),
    digitChar_toNat _ (by omega), digitChar_toNat _ (by omega)]
  omega

/-- For artifacts whose names are 4-digit zero-padded, filename order is
sequence-number order. -/
theorem fileLE_iff_num_le (a b : FrameFile)
    (ha : a.name = pad4 (fileNum a)) (hja : fileNum a ≤ 9999)
    (hb : b.name = pad4 (fileNum b)) (hjb : fileNum b ≤ 9999) :
    fileLE a b ↔ fileNum a ≤ fileNum b := by
  unfold fileLE fileName
  rw [ha, hb, List.append_assoc, List.append_assoc, lexLE_append_left]
  exact lexLE_pad4_iff (fileNum a) (fileNum b) hja hjb jpgTail

/-- `frame_files.sort()` (src/app.py:252): sort by filename string. -/
def sortFrames (l : List FrameFile) : List FrameFile := List.insertionSort fileLE l

theorem sortFrames_sorted (l : List FrameFile) : List.Sorted fileLE (sortFrames l) :=
  List.sorted_insertionSort fileLE l

theorem sortFrames_length (l : List FrameFile) : (sortFrames l).length = l.length :=
  List.length_insertionSort fileLE l

theorem mem_sortFrames {x : FrameFile} {l : List FrameFile} :
    x ∈ sortFrames l ↔ x ∈ l :=
  List.mem_insertionSort fileLE

/-- In a sorted listing the last file is greatest in filename order. -/
theorem sorted_getLast_max :
    ∀ (l : List FrameFile), List.Sorted fileLE l →
      ∀ (m : FrameFile), l.getLast? = some m → ∀ a ∈ l, fileLE a m := by
  intro l
  induction l with
  | nil => intro _ m hm; cases hm
  | cons f fs ih =>
    intro hs m hm a ha
    cases fs with
    | nil =>
      simp only [List.getLast?_singleton, Option.some.injEq] at hm
      rcases List.mem_singleton.mp ha with rfl
      rw [hm]
      exact fileLE_refl m
    | cons g gs =>
      rw [List.getLast?_cons_cons] at hm
      have hmem : m ∈ g :: gs :=
        List.mem_of_mem_getLast? (by rw [hm]; exact rfl)
      rcases List.mem_cons.mp ha with rfl | ha2
      · exact (List.sorted_cons.mp hs).1 m hmem
      · exact ih (List.sorted_cons.mp hs).2 m hm a ha2

theorem sortFrames_getLast_of_ne_nil (l : List FrameFile) (h : l ≠ []) :
    ∃ m, (sortFrames l).getLast? = some m := by
  cases hlast : (sortFrames l).getLast? with
  | some m => exact ⟨m, rfl⟩
  | none =>
    rw [List.getLast?_eq_none_iff] at hlast
    have := sortFrames_length l
    rw [hlast] at this
    exact absurd (List.length_eq_zero.mp this.symm) h

structure PollState where
  lastFrameNumber : Nat
  frameBuffer : List Nat
  lastFrameTime : Int
  framesReceived : Nat
deriving DecidableEq

/-- One iteration of the `_read_frames` poll loop body (src/app.py:247-288)
on a scratch-directory listing `disk`.  The listing is sorted by filename
string and the last entry is taken (`frame_files[-1]`); its number is
parsed from the name; if it is greater than the last seen number and the
bytes pass the plausibility threshold (non-empty, more than 1000 bytes),
it is published (buffer, wall-clock time, received counter, last seen
number) and, when more than 5 files are present, all but the last 5 of
the sorted listing are deleted (`frame_files[:-5]`). -/
def readFramesStep (disk : List FrameFile) (s : PollState) (now : Int) :
    List FrameFile × PollState :=
  match (sortFrames disk).getLast? with
  | none => (disk, s)
  | some latest =>
    if fileNum latest > s.lastFrameNumber then
      if latest.data ≠ [] ∧ latest.data.length > 1000 then
        (if (sortFrames disk).length > 5
           then (sortFrames disk).drop ((sortFrames disk).length - 5)
           else sortFrames disk,
         { lastFrameNumber := fileNum latest
           frameBuffer := latest.data
           lastFrameTime := now
           framesReceived := s.framesReceived + 1 })
      else (disk, s)
    else (disk, s)

theorem readFramesStep_fires (disk : List FrameFile) (s : PollState) (now : Int)
    (latest : FrameFile)
    (hlast : (sortFrames disk).getLast? = some latest)
    (hnew : fileNum latest > s.lastFrameNumber)
    (hdata : latest.data ≠ [] ∧ latest.data.length > 1000) :
    readFramesStep disk s now =
      (if (sortFrames disk).length > 5
         then (sortFrames disk).drop ((sortFrames disk).length - 5)
         else sortFrames disk,
       { lastFrameNumber := fileNum latest
         frameBuffer := latest.data
         lastFrameTime := now
         framesReceived := s.framesReceived + 1 }) := by
  unfold readFramesStep
  rw [hlast]
  dsimp only
  rw [if_pos hnew, if_pos hdata]

/-- The all-readable artifact data used in the concrete scenarios: 1001
bytes, above the 1000-byte plausibility threshold. -/
def bigData : List Nat := List.replicate 1001 0

/-- The scenario of C6: `frame_0001.jpg` .. `frame_0006.jpg` on disk. -/
def scenarioFiles : List FrameFile :=
  [⟨pad4 1, bigData⟩, ⟨pad4 2, bigData⟩, ⟨pad4 3, bigData⟩,
   ⟨pad4 4, bigData⟩, ⟨pad4 5, bigData⟩, ⟨pad4 6, bigData⟩]

/-- C6 counterexample: at the claim's own scenario point the scratch
directory holds six frame files while streaming — more than the retention
window of 5 — so "at every point ... at most 5 files" is false as stated.
The pruning happens only after the newer artifact `frame_0006` is
published: that step leaves exactly `frame_0002` .. `frame_0006`. -/
theorem frame_retention_counterexample :
    scenarioFiles.length = 6
    ∧ ¬ (scenarioFiles.length ≤ 5)
    ∧ (readFramesStep scenarioFiles ⟨5, [], 0, 0⟩ 7).1 = scenarioFiles.drop 1
    ∧ (readFramesStep scenarioFiles ⟨5, [], 0, 0⟩ 7).2.lastFrameNumber = 6 := by
  refine ⟨rfl, by decide, rfl, rfl⟩

/-- C6 (amended): for artifacts carrying the 4-digit zero-padded names the
extraction subprocess writes (`frame_0001` .. `frame_9999`, where
filename order is numeric order), after every poll iteration that
publishes a newer readable artifact the scratch directory is pruned to at
most the retention window: exactly the `min n 5` newest files remain (the
sorted suffix), every deleted file is no newer than every kept one
(deletion is oldest-first), and the published number is the newest one.
Transiently — before such a publish — more than 5 files can exist, as in
the scenario. -/
theorem frame_retention (disk : List FrameFile) (s : PollState) (now : Int)
    (latest : FrameFile)
    (hpad : ∀ f ∈ disk, f.name = pad4 (fileNum f) ∧ fileNum f ≤ 9999)
    (hlast : (sortFrames disk).getLast? = some latest)
    (hnew : fileNum latest > s.lastFrameNumber)
    (hdata : latest.data ≠ [] ∧ latest.data.length > 1000) :
    (readFramesStep disk s now).1
        = (sortFrames disk).drop ((sortFrames disk).length - 5)
    ∧ (readFramesStep disk s now).1.length = min disk.length 5
    ∧ (∀ f ∈ (sortFrames disk).take ((sortFrames disk).length - 5),
        ∀ g ∈ (readFramesStep disk s now).1, fileNum f ≤ fileNum g)
    ∧ (readFramesStep disk s now).2.lastFrameNumber = fileNum latest := by
  have hstep := readFramesStep_fires disk s now latest hlast hnew hdata
  have hlen := sortFrames_length disk
  have hfst : (readFramesStep disk s now).1
      = (sortFrames disk).drop ((sortFrames disk).length - 5) := by
    rw [hstep]
    by_cases hgt : (sortFrames disk).length > 5
    · rw [if_pos hgt]
    · rw [if_neg hgt]
      have : (sortFrames disk).length - 5 = 0 := by omega
      rw [this, List.drop_zero]
  refine ⟨hfst, ?_, ?_, ?_⟩
  · rw [hfst, List.length_drop]
    omega
  · intro f hf g hg
    rw [hfst] at hg
    have hpw : List.Pairwise fileLE (sortFrames disk) := sortFrames_sorted disk
    have hsplit := List.pairwise_append.mp
      (show List.Pairwise fileLE
          ((sortFrames disk).take ((sortFrames disk).length - 5)
            ++ (sortFrames disk).drop ((sortFrames disk).length - 5)) by
        rw [List.take_append_drop]; exact hpw)
    have hlex : fileLE f g := hsplit.2.2 f hf g hg
    have hfmem : f ∈ disk := mem_sortFrames.mp (List.take_subset _ _ hf)
    have hgmem : g ∈ disk := mem_sortFrames.mp (List.drop_subset _ _ hg)
    exact (fileLE_iff_num_le f g (hpad f hfmem).1 (hpad f hfmem).2
      (hpad g hgmem).1 (hpad g hgmem).2).mp hlex
  · rw [hstep]

/-- Witness for C6 at the scenario: publishing `frame_0006` from the
six-file listing leaves the newest five files. -/
theorem frame_retention_witness :
    (readFramesStep scenarioFiles ⟨5, [], 0, 0⟩ 7).1
        = (sortFrames scenarioFiles).drop ((sortFrames scenarioFiles).length - 5)
    ∧ (readFramesStep scenarioFiles ⟨5, [], 0, 0⟩ 7).1.length
        = min scenarioFiles.length 5
    ∧ (∀ f ∈ (sortFrames scenarioFiles).take ((sortFrames scenarioFiles).length - 5),
        ∀ g ∈ (readFramesStep scenarioFiles ⟨5, [], 0, 0⟩ 7).1,
          fileNum f ≤ fileNum g)
    ∧ (readFramesStep scenarioFiles ⟨5, [], 0, 0⟩ 7).2.lastFrameNumber
        = fileNum ⟨pad4 6, bigData⟩ :=
  frame_retention scenarioFiles ⟨5, [], 0, 0⟩ 7 ⟨pad4 6, bigData⟩ (by decide)
    rfl (by decide) ⟨by decide, by decide⟩

/-! ## Runs of the poll loop (for the monotonicity property)

A poll observation is what one loop iteration sees: the scratch-directory
listing and the wall-clock time of the iteration. -/

structure PollObs where
  files : List FrameFile
  time : Int
deriving DecidableEq

/-- The parsed sequence number of the artifact the code selects as latest
(the filename-wise last of the sorted listing), 0 when the listing is
empty. -/
def latestNum (o : PollObs) : Nat :=
  match (sortFrames o.files).getLast? with
  | some f => fileNum f
  | none => 0

/-- The bytes of the artifact the code selects as latest. -/
def latestData (o : PollObs) : List Nat :=
  match (sortFrames o.files).getLast? with
  | some f => f.data
  | none => []

/-- Whether the selected latest artifact passes the `_read_frames`
plausibility threshold (non-empty, more than 1000 bytes). -/
def latestReadable (o : PollObs) : Bool :=
  match (sortFrames o.files).getLast? with
  | some f => !f.data.isEmpty && decide (f.data.length > 1000)
  | none => true

/-- Folding the poll-loop iterations over a list of observations. -/
def runPoll (s : PollState) : List PollObs → PollState
  | [] => s
  | o :: rest => runPoll (readFramesStep o.files s o.time).2 rest

def filesMaxFrom (init : Nat) (files : List FrameFile) : Nat :=
  files.foldl (fun k f => max k (fileNum f)) init

/-- The highest sequence number among all artifacts of all observations,
starting from `init` (the initially last-seen number). -/
def obsMax (init : Nat) (obs : List PollObs) : Nat :=
  obs.foldl (fun m o => filesMaxFrom m o.files) init

theorem le_filesMaxFrom : ∀ (files : List FrameFile) (init : Nat),
    init ≤ filesMaxFrom init files := by
  intro files
  induction files with
  | nil => intro init; exact Nat.le_refl init
  | cons g gs ih =>
    intro init
    exact Nat.le_trans (Nat.le_max_left init (fileNum g)) (ih (max init (fileNum g)))

theorem filesMaxFrom_ge_mem : ∀ (files : List FrameFile) (init : Nat)
    (f : FrameFile), f ∈ files → fileNum f ≤ filesMaxFrom init files := by
  intro files
  induction files with
  | nil => intro _ f hf; cases hf
  | cons g gs ih =>
    intro init f hf
    rcases List.mem_cons.mp hf with rfl | hf2
    · exact Nat.le_trans (Nat.le_max_right init (fileNum f)) (le_filesMaxFrom gs _)
    · exact ih (max init (fileNum g)) f hf2

theorem filesMaxFrom_le : ∀ (files : List FrameFile) (init M : Nat),
    init ≤ M → (∀ f ∈ files, fileNum f ≤ M) → filesMaxFrom init files ≤ M := by
  intro files
  induction files with
  | nil => intro _ _ h _; exact h
  | cons g gs ih =>
    intro init M hinit hall
    exact ih _ M (Nat.max_le.mpr ⟨hinit, hall g (List.mem_cons_self g gs)⟩)
      (fun f hf => hall f (List.mem_cons_of_mem g hf))

/-- For a non-empty listing of 4-digit-named artifacts whose selected
latest number is above `init`, the running maximum over the listing is
that latest number. -/
theorem filesMaxFrom_latest (o : PollObs) (init : Nat)
    (latest : FrameFile)
    (hpad : ∀ f ∈ o.files, f.name = pad4 (fileNum f) ∧ fileNum f ≤ 9999)
    (hlast : (sortFrames o.files).getLast? = some latest)
    (hle : init ≤ fileNum latest) :
    filesMaxFrom init o.files = fileNum latest := by
  have hmem : latest ∈ o.files :=
    mem_sortFrames.mp (List.mem_of_mem_getLast? (by rw [hlast]; exact rfl))
  have hub : ∀ f ∈ o.files, fileNum f ≤ fileNum latest := by
    intro f hf
    have hlex : fileLE f latest :=
      sorted_getLast_max (sortFrames o.files) (sortFrames_sorted o.files)
        latest hlast f (mem_sortFrames.mpr hf)
    exact (fileLE_iff_num_le f latest (hpad f hf).1 (hpad f hf).2
      (hpad latest hmem).1 (hpad latest hmem).2).mp hlex
  exact Nat.le_antisymm (filesMaxFrom_le o.files init (fileNum latest) hle hub)
    (filesMaxFrom_ge_mem o.files init latest hmem)

/-- A poll iteration whose observation has a readable latest artifact that
is newer than the last seen number publishes exactly that artifact. -/
theorem readFramesStep_head (o : PollObs) (s : PollState)
    (hofiles : o.files ≠ []) (horead : latestReadable o = true)
    (hlt : s.lastFrameNumber < latestNum o) :
    (readFramesStep o.files s o.time).2 =
      { lastFrameNumber := latestNum o
        frameBuffer := latestData o
        lastFrameTime := o.time
        framesReceived := s.framesReceived + 1 } := by
  obtain ⟨latest, hlast⟩ := sortFrames_getLast_of_ne_nil o.files hofiles
  have hnum : latestNum o = fileNum latest := by
    unfold latestNum
    rw [hlast]
  have hdat : latestData o = latest.data := by
    unfold latestData
    rw [hlast]
  have hdata : latest.data ≠ [] ∧ latest.data.length > 1000 := by
    unfold latestReadable at horead
    rw [hlast] at horead
    simp only [Bool.and_eq_true, Bool.not_eq_true', List.isEmpty_eq_false,
      decide_eq_true_eq] at horead
    exact horead
  have hstep := readFramesStep_fires o.files s o.time latest hlast
    (by omega) hdata
  rw [hstep, hnum, hdat]

/-- Along a run whose observations all fire (non-empty, readable, strictly
newer), the published number and timestamp never decrease. -/
theorem runPoll_mono (obs : List PollObs) :
    ∀ (s : PollState),
    (∀ o ∈ obs, o.files ≠ []) →
    (∀ o ∈ obs, latestReadable o = true) →
    List.Chain (· < ·) s.lastFrameNumber (obs.map latestNum) →
    List.Chain (· ≤ ·) s.lastFrameTime (obs.map PollObs.time) →
    s.lastFrameNumber ≤ (runPoll s obs).lastFrameNumber
    ∧ s.lastFrameTime ≤ (runPoll s obs).lastFrameTime := by
  induction obs with
  | nil => intro s _ _ _ _; exact ⟨Nat.le_refl _, le_refl _⟩
  | cons o rest ih =>
    intro s hne hread hinc ht
    rw [List.map_cons, List.chain_cons] at hinc ht
    have hofiles := hne o (List.mem_cons_self o rest)
    have horead := hread o (List.mem_cons_self o rest)
    have hstep := readFramesStep_head o s hofiles horead hinc.1
    have hrun : runPoll s (o :: rest)
        = runPoll ⟨latestNum o, latestData o, o.time, s.framesReceived + 1⟩ rest := by
      show runPoll (readFramesStep o.files s o.time).2 rest = _
      rw [hstep]
    obtain ⟨e1, e2⟩ := ih ⟨latestNum o, latestData o, o.time, s.framesReceived + 1⟩
      (fun x hx => hne x (List.mem_cons_of_mem o hx))
      (fun x hx => hread x (List.mem_cons_of_mem o hx))
      hinc.2 ht.2
    rw [hrun]
    exact ⟨Nat.le_trans (Nat.le_of_lt hinc.1) e1, le_trans ht.1 e2⟩

/-- The artifact `frame_9999.jpg`. -/
def f9999 : FrameFile := ⟨['9', '9', '9', '9'], bigData⟩

/-- The artifact `frame_10000.jpg` (`%04d` is a minimum width: from frame
10000 on, the digit field has five digits). -/
def f10000 : FrameFile := ⟨['1', '0', '0', '0', '0'], bigData⟩

/-- C7 counterexample: `frame_10000.jpg` sorts lexicographically before
`frame_9999.jpg` (`'1' < '9'`), so with both on disk — artifacts 9999 and
10000, strictly increasing sequence numbers, both readable — the poll
loop publishes artifact 9999, not the highest-numbered artifact seen
(10000): the claim fails on the code once sequence numbers pass the
4-digit range (about 33 minutes at the configured 5 fps). -/
theorem read_frames_monotone_counterexample :
    (runPoll ⟨9998, [], 0, 0⟩ [⟨[f10000, f9999], 7⟩]).lastFrameNumber
        ≠ obsMax 9998 [⟨[f10000, f9999], 7⟩]
    ∧ (runPoll ⟨9998, [], 0, 0⟩ [⟨[f10000, f9999], 7⟩]).lastFrameNumber = 9999
    ∧ obsMax 9998 [⟨[f10000, f9999], 7⟩] = 10000
    ∧ latestReadable ⟨[f10000, f9999], 7⟩ = true
    ∧ fileNum f9999 = 9999
    ∧ fileNum f10000 = 10000 := by
  refine ⟨by decide, rfl, rfl, rfl, rfl, rfl⟩

/-- C7 (amended): for runs whose artifacts all carry 4-digit zero-padded
names (sequence numbers at most 9999 — the range where filename order is
numeric order), divided into a past `p` and a future `q`: when each
observation is non-empty with a readable latest artifact, the observed
latest sequence numbers strictly increase, and the observation times are
non-decreasing, the published frame number after the past equals the
highest sequence number among all artifacts seen so far (never an older
one), it never decreases as the run continues, and the published capture
timestamp is monotonically non-decreasing.  Beyond 9999 the lexicographic
filename sort diverges from numeric order and the property fails (see the
counterexample). -/
theorem read_frames_monotone (p q : List PollObs) (s : PollState)
    (hpad : ∀ o ∈ p ++ q, ∀ f ∈ o.files,
      f.name = pad4 (fileNum f) ∧ fileNum f ≤ 9999)
    (hne : ∀ o ∈ p ++ q, o.files ≠ [])
    (hread : ∀ o ∈ p ++ q, latestReadable o = true)
    (hinc : List.Chain (· < ·) s.lastFrameNumber ((p ++ q).map latestNum))
    (ht : List.Chain (· ≤ ·) s.lastFrameTime ((p ++ q).map PollObs.time)) :
    (runPoll s p).lastFrameNumber = obsMax s.lastFrameNumber p
    ∧ (runPoll s p).lastFrameNumber ≤ (runPoll s (p ++ q)).lastFrameNumber
    ∧ (runPoll s p).lastFrameTime ≤ (runPoll s (p ++ q)).lastFrameTime := by
  induction p generalizing s with
  | nil =>
    rw [List.nil_append] at hne hread hinc ht
    exact ⟨rfl, (runPoll_mono q s hne hread hinc ht).1,
      (runPoll_mono q s hne hread hinc ht).2⟩
  | cons o p2 ih =>
    have hca : (o :: p2) ++ q = o :: (p2 ++ q) := List.cons_append o p2 q
    rw [hca] at hpad hne hread hinc ht
    rw [List.map_cons, List.chain_cons] at hinc ht
    have hofiles := hne o (List.mem_cons_self o (p2 ++ q))
    have horead := hread o (List.mem_cons_self o (p2 ++ q))
    have hstep := readFramesStep_head o s hofiles horead hinc.1
    have hrun1 : runPoll s (o :: p2)
        = runPoll ⟨latestNum o, latestData o, o.time, s.framesReceived + 1⟩ p2 := by
      show runPoll (readFramesStep o.files s o.time).2 p2 = _
      rw [hstep]
    have hrun2 : runPoll s ((o :: p2) ++ q)
        = runPoll ⟨latestNum o, latestData o, o.time, s.framesReceived + 1⟩ (p2 ++ q) := by
      rw [hca]
      show runPoll (readFramesStep o.files s o.time).2 (p2 ++ q) = _
      rw [hstep]
    obtain ⟨e1, e2, e3⟩ := ih ⟨latestNum o, latestData o, o.time, s.framesReceived + 1⟩
      (fun x hx => hpad x (List.mem_cons_of_mem o hx))
      (fun x hx => hne x (List.mem_cons_of_mem o hx))
      (fun x hx => hread x (List.mem_cons_of_mem o hx))
      hinc.2 ht.2
    obtain ⟨latest, hlast⟩ := sortFrames_getLast_of_ne_nil o.files hofiles
    have hnum : latestNum o = fileNum latest := by
      unfold latestNum
      rw [hlast]
    have hmax : filesMaxFrom s.lastFrameNumber o.files = latestNum o := by
      rw [hnum]
      exact filesMaxFrom_latest o s.lastFrameNumber latest
        (hpad o (List.mem_cons_self o (p2 ++ q))) hlast (by omega)
    refine ⟨?_, ?_, ?_⟩
    · rw [hrun1, e1]
      show obsMax (latestNum o) p2 = obsMax s.lastFrameNumber (o :: p2)
      unfold obsMax
      rw [List.foldl_cons, hmax]
    · rw [hrun1, hrun2]
      exact e2
    · rw [hrun1, hrun2]
      exact e3

/-- Witness for C7: two observations (artifacts `frame_0001` then
`frame_0002`, both readable, times 5 then 6) split as past, future. -/
theorem read_frames_monotone_witness :
    (runPoll ⟨0, [], 0, 0⟩ [⟨[⟨pad4 1, bigData⟩], 5⟩]).lastFrameNumber
        = obsMax 0 [⟨[⟨pad4 1, bigData⟩], 5⟩]
    ∧ (runPoll ⟨0, [], 0, 0⟩ [⟨[⟨pad4 1, bigData⟩], 5⟩]).lastFrameNumber
        ≤ (runPoll ⟨0, [], 0, 0⟩
            ([⟨[⟨pad4 1, bigData⟩], 5⟩] ++ [⟨[⟨pad4 2, bigData⟩], 6⟩])).lastFrameNumber
    ∧ (runPoll ⟨0, [], 0, 0⟩ [⟨[⟨pad4 1, bigData⟩], 5⟩]).lastFrameTime
        ≤ (runPoll ⟨0, [], 0, 0⟩
            ([⟨[⟨pad4 1, bigData⟩], 5⟩] ++ [⟨[⟨pad4 2, bigData⟩], 6⟩])).lastFrameTime :=
  read_frames_monotone [⟨[⟨pad4 1, bigData⟩], 5⟩] [⟨[⟨pad4 2, bigData⟩], 6⟩]
    ⟨0, [], 0, 0⟩ (by decide) (by decide) (by decide)
    (List.Chain.cons (by decide) (List.Chain.cons (by decide) List.Chain.nil))
    (List.Chain.cons (by decide) (List.Chain.cons (by decide) List.Chain.nil))


/-! ## The recording loop (RTSPStreamer._recording_loop, src/app.py lines 395-489)

The inner monitor loop (lines 452-479) runs one 10-second tick per
iteration: it first checks the recording/streaming flags, then subprocess
liveness (`poll()`), then — when the output file exists — its on-disk
size against the rotation threshold, and otherwise sleeps to the next
tick.  `flagsOn t`, `alive t` and `size t` are the environment as sampled
at tick `t`. -/

inductive InnerExit
  | rotated (tick : Nat)
  | crashed (tick : Nat)
  | stopped (tick : Nat) (aliveAtExit : Bool)
  | errored (tick : Nat) (aliveAtError : Bool)
deriving DecidableEq

/-- The inner monitor loop, fuel-bounded; returns how and at which tick it
ends (`none` when the fuel runs out first).  `rotated t`: the size check
at tick `t` met the threshold, so `_stop_recording_gracefully` ran and the
loop broke to start the next file; `crashed t`: the subprocess was found
exited; `stopped t`: the recording/streaming flags were cleared.
`errored t` is the fourth way an outer iteration can end — an exception
raised inside the `try` (e.g. `os.path.getsize` at line 471 racing a
concurrent file deletion after the `exists` check) jumps to the `except`
handler at line 485, skipping the after-loop cleanup; `aliveAtError` says
whether the subprocess was still running at that point.  The monitor
function below models only the explicit checks, so it never returns
`errored`; the exception is an environment event supplied directly to the
trace via `exits`. -/
def recordingMonitor (maxSize : Nat) (flagsOn alive : Nat → Bool)
    (size : Nat → Option Nat) : Nat → Nat → Option InnerExit
  | 0, _ => none
  | fuel + 1, t =>
    if flagsOn t = false then some (.stopped t (alive t))
    else if alive t = false then some (.crashed t)
    else
      match size t with
      | some sz =>
        if sz ≥ maxSize then some (.rotated t)
        else recordingMonitor maxSize flagsOn alive size fuel (t + 1)
      | none => recordingMonitor maxSize flagsOn alive size fuel (t + 1)

/-- Events of one outer `_recording_loop` iteration for file `i`: the
subprocess is spawned; then either the graceful ladder finalizes it
(size-triggered rotation at line 476, or the after-loop cleanup at
line 482 when it is still alive), or it is observed already exited
(crash path, line 454 — the after-loop cleanup then skips the ladder),
or — on the `except` path at line 485 with the subprocess still alive —
the iteration ends with no death event at all: the cleanup is skipped and
the subprocess is left running. -/
inductive RecEvent
  | spawn (idx : Nat)
  | procExit (idx : Nat)
  | finalize (idx : Nat)
deriving DecidableEq

def iterEvents (i : Nat) : InnerExit → List RecEvent
  | .rotated _ => [.spawn i, .finalize i]
  | .crashed _ => [.spawn i, .procExit i]
  | .stopped _ al => if al then [.spawn i, .finalize i] else [.spawn i, .procExit i]
  | .errored _ al => if al then [.spawn i] else [.spawn i, .procExit i]

/-- The event trace of `n` outer-loop iterations, iteration `i` ending the
way `exits i` says.  The loop is sequential: each iteration's events are
emitted in order before the next iteration starts. -/
def recordingLoopTrace (exits : Nat → InnerExit) (n : Nat) : List RecEvent :=
  ((List.range n).map (fun i => iterEvents i (exits i))).flatten

def aliveDelta : RecEvent → Int
  | .spawn _ => 1
  | .procExit _ => -1
  | .finalize _ => -1

/-- Number of recording subprocesses alive after a trace: spawns minus
deaths (graceful finalizations and crashes). -/
def aliveCount (tr : List RecEvent) : Int := (tr.map aliveDelta).sum

theorem recordingMonitor_first_crossing (maxSize t0 : Nat)
    (flagsOn alive : Nat → Bool) (size : Nat → Option Nat)
    (hflags : ∀ t, t ≤ t0 → flagsOn t = true)
    (halive : ∀ t, t ≤ t0 → alive t = true)
    (hsmall : ∀ t, t < t0 → ∀ sz, size t = some sz → sz < maxSize)
    (sz0 : Nat) (hbig : size t0 = some sz0) (hbig2 : sz0 ≥ maxSize) :
    ∀ (fuel t : Nat), t ≤ t0 → t0 - t < fuel →
      recordingMonitor maxSize flagsOn alive size fuel t = some (.rotated t0) := by
  intro fuel
  induction fuel with
  | zero => intro t _ h; omega
  | succ f ih =>
    intro t hle hfuel
    show (if flagsOn t = false then _ else _) = _
    rw [hflags t hle, halive t hle]
    rw [if_neg (by decide), if_neg (by decide)]
    by_cases ht0 : t = t0
    · subst ht0
      rw [hbig]
      dsimp only
      rw [if_pos hbig2]
    · have htlt : t < t0 := by omega
      cases hsz : size t with
      | none =>
        dsimp only
        exact ih (t + 1) (by omega) (by omega)
      | some sz =>
        dsimp only
        rw [if_neg (by have := hsmall t htlt sz hsz; omega)]
        exact ih (t + 1) (by omega) (by omega)

theorem iterEvents_head (j : Nat) (e : InnerExit) :
    ∃ r, iterEvents j e = RecEvent.spawn j :: r := by
  cases e with
  | rotated t => exact ⟨[.finalize j], rfl⟩
  | crashed t => exact ⟨[.procExit j], rfl⟩
  | stopped t al =>
    cases al
    · exact ⟨[.procExit j], rfl⟩
    · exact ⟨[.finalize j], rfl⟩
  | errored t al =>
    cases al
    · exact ⟨[.procExit j], rfl⟩
    · exact ⟨[], rfl⟩

/-- When outer iteration `i` ends by rotation, the graceful finalization
of file `i` appears in the trace before the spawn of file `i + 1`. -/
theorem finalize_before_next_spawn (exits : Nat → InnerExit) (n i : Nat)
    (t0 : Nat) (hn : i + 1 < n) (hrot : exits i = .rotated t0) :
    List.Sublist [RecEvent.finalize i, RecEvent.spawn (i + 1)] (recordingLoopTrace exits n) := by
  obtain ⟨k, hk⟩ : ∃ k, n = (i + 1 + 1) + k := ⟨n - (i + 2), by omega⟩
  subst hk
  unfold recordingLoopTrace
  rw [List.range_add, List.range_succ, List.range_succ]
  simp only [List.map_append, List.flatten_append, List.map_cons, List.map_nil,
    List.flatten_cons, List.flatten_nil, List.append_nil]
  rw [hrot]
  obtain ⟨r, hr⟩ := iterEvents_head (i + 1) (exits (i + 1))
  rw [hr]
  simp only [iterEvents, List.append_assoc, List.cons_append, List.nil_append]
  refine List.Sublist.trans ?_ (List.sublist_append_right _ _)
  exact ((List.nil_sublist _).cons₂ _).cons₂ _ |>.cons _

/-- C5: (a) with the recording/streaming flags on and the subprocess alive
through tick `t0`, the on-disk size below the threshold at every earlier
tick and at or above it at tick `t0`, the inner monitor loop ends with a
rotation exactly at tick `t0` — the first tick at which the sampled size
crosses the threshold, i.e. within one polling interval of the crossing;
(b) in the sequential loop trace, the superseded file's graceful
finalization precedes the next file's spawn. -/
theorem recording_rotation (maxSize t0 fuel sz0 : Nat)
    (flagsOn alive : Nat → Bool) (size : Nat → Option Nat)
    (exits : Nat → InnerExit) (n i : Nat)
    (hflags : ∀ t, t ≤ t0 → flagsOn t = true)
    (halive : ∀ t, t ≤ t0 → alive t = true)
    (hsmall : ∀ t, t < t0 → ∀ sz, size t = some sz → sz < maxSize)
    (hbig : size t0 = some sz0) (hbig2 : sz0 ≥ maxSize)
    (hfuel : t0 < fuel)
    (hn : i + 1 < n) (hrot : exits i = .rotated t0) :
    recordingMonitor maxSize flagsOn alive size fuel 0 = some (.rotated t0)
    ∧ List.Sublist [RecEvent.finalize i, RecEvent.spawn (i + 1)] (recordingLoopTrace exits n) :=
  ⟨recordingMonitor_first_crossing maxSize t0 flagsOn alive size hflags halive
      hsmall sz0 hbig hbig2 fuel 0 (Nat.zero_le t0) (by omega),
   finalize_before_next_spawn exits n i t0 hn hrot⟩

/-- Witness for C5: the spec scenario — threshold 10 MB, the file growing
1 MB per 10-second tick (`size t = t MB`), flags on, subprocess alive.
Rotation fires at tick 10 (about 100 s elapsed) and not earlier, and
finalization of file 0 precedes the spawn of file 1. -/
theorem recording_rotation_witness :
    recordingMonitor 10485760 (fun _ => true) (fun _ => true)
        (fun t => some (t * 1048576)) 11 0 = some (.rotated 10)
    ∧ List.Sublist [RecEvent.finalize 0, RecEvent.spawn 1]
        (recordingLoopTrace (fun _ => .rotated 10) 2) :=
  recording_rotation 10485760 10 11 10485760 (fun _ => true) (fun _ => true)
    (fun t => some (t * 1048576)) (fun _ => .rotated 10) 2 0
    (fun _ _ => rfl) (fun _ _ => rfl)
    (fun t ht sz hsz => by
      have : t * 1048576 = sz := Option.some.inj hsz
      omega)
    rfl (by omega) (by omega) (by omega) rfl

/-! ## At most one live recording subprocess, and stop_recording
(src/app.py lines 395-489 and 529-534) -/

structure RecState where
  recording : Bool
  procSet : Bool
  procAlive : Bool
  finalizedFiles : Nat
deriving DecidableEq

/-- The state effect of `_stop_recording_gracefully` (src/app.py:491): the
guard returns immediately unless a recording subprocess exists and is
still running; otherwise the ladder runs to completion, after which the
subprocess is dead and its output file finalized. -/
def stopRecordingEffect (s : RecState) : RecState :=
  if s.procSet = true ∧ s.procAlive = true then
    { s with procAlive := false, finalizedFiles := s.finalizedFiles + 1 }
  else s

/-- `stop_recording` (src/app.py:529): clear the recording flag, run the
graceful ladder, drop the subprocess reference. -/
def stop_recording (s : RecState) : RecState :=
  { stopRecordingEffect { s with recording := false } with
    procSet := false, procAlive := false }

/-- Every block of the recording-loop trace is one spawn followed by one
death event (graceful finalization or observed crash), so along every
prefix of the trace the number of live recording subprocesses is 0 or 1. -/
theorem flatten_blocks_alive :
    ∀ (blocks : List (List RecEvent)),
      (∀ b ∈ blocks, ∃ i e, b = [RecEvent.spawn i, e] ∧ aliveDelta e = -1) →
      ∀ (p q : List RecEvent), blocks.flatten = p ++ q →
        0 ≤ aliveCount p ∧ aliveCount p ≤ 1 := by
  intro blocks
  induction blocks with
  | nil =>
    intro _ p q hpq
    have hp : p = [] := (List.append_eq_nil.mp hpq.symm).1
    subst hp
    exact ⟨by decide, by decide⟩
  | cons b rest ih =>
    intro hb p q hpq
    obtain ⟨i, e, hbe, hdelta⟩ := hb b (List.mem_cons_self b rest)
    rw [List.flatten_cons, hbe] at hpq
    simp only [List.cons_append, List.nil_append] at hpq
    cases p with
    | nil => exact ⟨by decide, by decide⟩
    | cons x p2 =>
      rw [List.cons_append] at hpq
      injection hpq with hx hrest1
      cases p2 with
      | nil =>
        subst hx
        constructor <;>
        · simp only [aliveCount, List.map_cons, List.map_nil, List.sum_cons,
            List.sum_nil, aliveDelta]
          omega
      | cons y p3 =>
        rw [List.cons_append] at hrest1
        injection hrest1 with hy hrest2
        obtain ⟨ih1, ih2⟩ :=
          ih (fun c hc => hb c (List.mem_cons_of_mem b hc)) p3 q hrest2
        subst hx
        subst hy
        simp only [aliveCount, List.map_cons, List.sum_cons, aliveDelta] at *
        omega

/-- C8 counterexample: iteration 0 aborts via the `except` handler at
line 485 with its subprocess still alive — e.g. `os.path.getsize`
(line 471) raising after the `exists` check because `delete_recording`
removed the active file — so the after-loop cleanup is skipped and no
death event occurs; iteration 1 then spawns a second subprocess while the
first still runs.  After the two spawns the trace prefix has alive count
2, refuting "never leaves more than one recording subprocess alive". -/
theorem single_recording_process_counterexample :
    recordingLoopTrace (fun i => if i = 0 then .errored 3 true else .rotated 10) 2
        = [RecEvent.spawn 0, RecEvent.spawn 1] ++ [RecEvent.finalize 1]
    ∧ aliveCount [RecEvent.spawn 0, RecEvent.spawn 1] = 2
    ∧ ¬ (aliveCount [RecEvent.spawn 0, RecEvent.spawn 1] ≤ 1) := by
  refine ⟨rfl, by decide, by decide⟩

/-- C8 (amended): (a) along every prefix of the sequential recording-loop
trace of a run in which no iteration is aborted by the `except` handler
while its subprocess is still alive (every iteration ends in rotation,
observed crash, flag-stop, or an exception after the subprocess died), at
most one recording subprocess is alive (and never a negative number) —
such a run never leaves two subprocesses alive simultaneously; an
exception-aborted iteration with a live subprocess escapes this (see the
counterexample); (b) calling `stop_recording` while a recording is active
(a live subprocess exists) finalizes exactly one file — one more than
before, never zero — and leaves no live subprocess and the recording flag
cleared. -/
theorem single_recording_process (exits : Nat → InnerExit) (n : Nat)
    (p q : List RecEvent) (hsplit : recordingLoopTrace exits n = p ++ q)
    (hnoerr : ∀ (i t : Nat), exits i ≠ InnerExit.errored t true)
    (s : RecState) (hset : s.procSet = true) (halive : s.procAlive = true) :
    (0 ≤ aliveCount p ∧ aliveCount p ≤ 1)
    ∧ (stop_recording s).finalizedFiles = s.finalizedFiles + 1
    ∧ (stop_recording s).procAlive = false
    ∧ (stop_recording s).procSet = false
    ∧ (stop_recording s).recording = false := by
  constructor
  · apply flatten_blocks_alive
      ((List.range n).map (fun i => iterEvents i (exits i))) ?_ p q hsplit
    intro b hbmem
    obtain ⟨j, _, heq⟩ := List.mem_map.mp hbmem
    cases hexit : exits j with
    | rotated t =>
      exact ⟨j, .finalize j, by rw [← heq, hexit]; rfl, rfl⟩
    | crashed t =>
      exact ⟨j, .procExit j, by rw [← heq, hexit]; rfl, rfl⟩
    | stopped t al =>
      cases al
      · exact ⟨j, .procExit j, by rw [← heq, hexit]; rfl, rfl⟩
      · exact ⟨j, .finalize j, by rw [← heq, hexit]; rfl, rfl⟩
    | errored t al =>
      cases al
      · exact ⟨j, .procExit j, by rw [← heq, hexit]; rfl, rfl⟩
      · exact absurd hexit (hnoerr j t)
  · have hcond : ({ s with recording := false } : RecState).procSet = true
        ∧ ({ s with recording := false } : RecState).procAlive = true :=
      ⟨hset, halive⟩
    unfold stop_recording stopRecordingEffect
    rw [if_pos hcond]
    exact ⟨rfl, rfl, rfl, rfl⟩

/-- Witness for C8: a two-rotation (exception-free) trace split after the
first block, and a stop issued on an active recording with no files
finalized yet. -/
theorem single_recording_process_witness :
    (0 ≤ aliveCount [RecEvent.spawn 0, RecEvent.finalize 0]
      ∧ aliveCount [RecEvent.spawn 0, RecEvent.finalize 0] ≤ 1)
    ∧ (stop_recording ⟨true, true, true, 0⟩).finalizedFiles = 0 + 1
    ∧ (stop_recording ⟨true, true, true, 0⟩).procAlive = false
    ∧ (stop_recording ⟨true, true, true, 0⟩).procSet = false
    ∧ (stop_recording ⟨true, true, true, 0⟩).recording = false :=
  single_recording_process (fun _ => .rotated 10) 2
    [RecEvent.spawn 0, RecEvent.finalize 0] [RecEvent.spawn 1, RecEvent.finalize 1]
    rfl (fun _ _ h => nomatch h) ⟨true, true, true, 0⟩ rfl rfl

/-! ## Recording-serving and -deletion endpoints
(serve_recording and delete_recording, src/app.py lines 710-747)

Filenames and paths are lists of characters.  `onDisk` models
`os.path.exists`; `removeOk` models whether `os.remove` succeeds. -/

/-- `'..' in filename` (Python substring containment). -/
def hasDotDot : List Char → Bool
  | [] => false
  | [_] => false
  | c :: d :: rest => (c == '.' && d == '.') || hasDotDot (d :: rest)

/-- `'/' in filename`. -/
def hasSlash : List Char → Bool
  | [] => false
  | c :: rest => if c = '/' then true else hasSlash rest

/-- The shared guard `'..' in filename or '/' in filename`
(src/app.py:720 and 735). -/
def blockedName (f : List Char) : Bool := hasDotDot f || hasSlash f

/-- `os.path.join(recordings_dir, filename)` for a relative filename. -/
def joinPath (dir f : List Char) : List Char := dir ++ '/' :: f

inductive ServeResult
  | badRequest
  | sendFile (dir name : List Char)
deriving DecidableEq

/-- `serve_recording` (src/app.py:710): status 400 on a blocked name,
otherwise `send_from_directory(recordings_dir, filename)`. -/
def serve_recording (dir f : List Char) : ServeResult :=
  if blockedName f = true then .badRequest else .sendFile dir f

inductive DeleteResult
  | badRequest
  | notFound
  | deleted (path : List Char)
  | serverError
deriving DecidableEq

/-- `delete_recording` (src/app.py:726): status 400 on a blocked name;
then status 404 when the joined path does not exist; then `os.remove`,
with status 500 when removal raises. -/
def delete_recording (dir f : List Char) (onDisk : List Char → Bool)
    (removeOk : Bool) : DeleteResult :=
  if blockedName f = true then .badRequest
  else if onDisk (joinPath dir f) = false then .notFound
  else if removeOk then .deleted (joinPath dir f) else .serverError

/-- Splitting a path into its `'/'`-separated segments. -/
def splitSlash : List Char → List (List Char)
  | [] => [[]]
  | c :: rest =>
    if c = '/' then [] :: splitSlash rest
    else
      match splitSlash rest with
      | [] => [[c]]
      | seg :: more => (c :: seg) :: more

/-- Resolving a segment list against an accumulator: `".."` pops one
segment, `"."` is skipped, anything else descends. -/
def resolveFrom (acc : List (List Char)) : List (List Char) → List (List Char)
  | [] => acc
  | seg :: rest =>
    if seg = ['.', '.'] then resolveFrom acc.dropLast rest
    else if seg = ['.'] then resolveFrom acc rest
    else resolveFrom (acc ++ [seg]) rest

theorem resolveFrom_cons (acc : List (List Char)) (seg : List Char)
    (rest : List (List Char)) :
    resolveFrom acc (seg :: rest) =
      if seg = ['.', '.'] then resolveFrom acc.dropLast rest
      else if seg = ['.'] then resolveFrom acc rest
      else resolveFrom (acc ++ [seg]) rest := rfl

theorem splitSlash_cons (c : Char) (rest : List Char) :
    splitSlash (c :: rest) =
      if c = '/' then [] :: splitSlash rest
      else
        match splitSlash rest with
        | [] => [[c]]
        | seg :: more => (c :: seg) :: more := rfl

theorem splitSlash_ne_nil : ∀ (l : List Char), splitSlash l ≠ [] := by
  intro l
  cases l with
  | nil => exact List.cons_ne_nil _ _
  | cons c rest =>
    rw [splitSlash_cons]
    by_cases h : c = '/'
    · rw [if_pos h]
      exact List.cons_ne_nil _ _
    · rw [if_neg h]
      cases hs : splitSlash rest with
      | nil => exact List.cons_ne_nil _ _
      | cons seg more => exact List.cons_ne_nil _ _

theorem splitSlash_append : ∀ (a b : List Char),
    splitSlash (a ++ '/' :: b) = splitSlash a ++ splitSlash b := by
  intro a b
  induction a with
  | nil => rfl
  | cons c a2 ih =>
    rw [List.cons_append, splitSlash_cons, splitSlash_cons, ih]
    by_cases h : c = '/'
    · rw [if_pos h, if_pos h, List.cons_append]
    · rw [if_neg h, if_neg h]
      cases hs : splitSlash a2 with
      | nil => exact absurd hs (splitSlash_ne_nil a2)
      | cons seg more =>
        rw [List.cons_append]
        rfl

theorem splitSlash_no_slash : ∀ (f : List Char), hasSlash f = false →
    splitSlash f = [f] := by
  intro f
  induction f with
  | nil => intro _; rfl
  | cons c rest ih =>
    intro h
    unfold hasSlash at h
    have hc : ¬ (c = '/') := by
      intro hc
      rw [if_pos hc] at h
      cases h
    rw [if_neg hc] at h
    show splitSlash (c :: rest) = [c :: rest]
    unfold splitSlash
    rw [if_neg hc, ih h]

theorem resolveFrom_append : ∀ (l1 l2 acc : List (List Char)),
    resolveFrom acc (l1 ++ l2) = resolveFrom (resolveFrom acc l1) l2 := by
  intro l1
  induction l1 with
  | nil => intro l2 acc; rfl
  | cons seg r ih =>
    intro l2 acc
    rw [List.cons_append, resolveFrom_cons, resolveFrom_cons]
    by_cases h1 : seg = ['.', '.']
    · rw [if_pos h1, if_pos h1, ih]
    · rw [if_neg h1, if_neg h1]
      by_cases h2 : seg = ['.']
      · rw [if_pos h2, if_pos h2, ih]
      · rw [if_neg h2, if_neg h2, ih]

theorem resolveFrom_single (acc : List (List Char)) (seg : List Char)
    (h : seg ≠ ['.', '.']) :
    resolveFrom acc [seg] = acc ∨ resolveFrom acc [seg] = acc ++ [seg] := by
  rw [resolveFrom_cons, if_neg h]
  by_cases h2 : seg = ['.']
  · rw [if_pos h2]
    exact Or.inl rfl
  · rw [if_neg h2]
    exact Or.inr rfl

theorem ne_dotdot_of_not_hasDotDot (f : List Char) (h : hasDotDot f = false) :
    f ≠ ['.', '.'] := by
  intro hf
  subst hf
  exact absurd h (by decide)

/-- C10: a filename containing `".."` or `'/'` makes both endpoints answer
status 400, and the deletion endpoint then gives the same answer whatever
the filesystem contents are (it is never consulted); a clean filename
whose joined path does not exist makes deletion answer 404; and for every
clean filename the resolved accessed path is the resolved recordings
directory itself or the single entry `f` directly inside it — never a path
outside the recordings directory. -/
theorem traversal_guard (dir f : List Char) (onDisk : List Char → Bool)
    (removeOk : Bool) :
    (blockedName f = true →
        serve_recording dir f = .badRequest
        ∧ delete_recording dir f onDisk removeOk = .badRequest
        ∧ ∀ (onDisk2 : List Char → Bool) (removeOk2 : Bool),
            delete_recording dir f onDisk2 removeOk2
              = delete_recording dir f onDisk removeOk)
    ∧ (blockedName f = false → onDisk (joinPath dir f) = false →
        delete_recording dir f onDisk removeOk = .notFound)
    ∧ (blockedName f = false →
        ∃ tail, resolveFrom [] (splitSlash (joinPath dir f))
              = resolveFrom [] (splitSlash dir) ++ tail
          ∧ (tail = [] ∨ tail = [f])) := by
  refine ⟨?_, ?_, ?_⟩
  · intro hb
    refine ⟨?_, ?_, ?_⟩
    · unfold serve_recording
      rw [if_pos hb]
    · unfold delete_recording
      rw [if_pos hb]
    · intro onDisk2 removeOk2
      unfold delete_recording
      rw [if_pos hb, if_pos hb]
  · intro hb hmiss
    unfold delete_recording
    rw [if_neg (by rw [hb]; exact Bool.false_ne_true), if_pos hmiss]
  · intro hb
    have h2 : hasDotDot f = false ∧ hasSlash f = false := by
      have := hb
      unfold blockedName at this
      exact Bool.or_eq_false_iff.mp this
    show ∃ tail, resolveFrom [] (splitSlash (dir ++ '/' :: f)) = _ ∧ _
    rw [splitSlash_append, splitSlash_no_slash f h2.2, resolveFrom_append]
    rcases resolveFrom_single (resolveFrom [] (splitSlash dir)) f
        (ne_dotdot_of_not_hasDotDot f h2.1) with hc | hc
    · exact ⟨[], by rw [hc, List.append_nil], Or.inl rfl⟩
    · exact ⟨[f], by rw [hc], Or.inr rfl⟩

/-- Witness for C10: the blocked name `".."`, and the clean name `"a"`
against an empty recordings directory. -/
theorem traversal_guard_witness :
    serve_recording ['r'] ['.', '.'] = .badRequest
    ∧ delete_recording ['r'] ['a'] (fun _ => false) true = .notFound
    ∧ ∃ tail, resolveFrom [] (splitSlash (joinPath ['r'] ['a']))
          = resolveFrom [] (splitSlash ['r']) ++ tail
        ∧ (tail = [] ∨ tail = [['a']]) :=
  ⟨((traversal_guard ['r'] ['.', '.'] (fun _ => false) true).1 (by decide)).1,
   (traversal_guard ['r'] ['a'] (fun _ => false) true).2.1 (by decide) rfl,
   (traversal_guard ['r'] ['a'] (fun _ => false) true).2.2 (by decide)⟩

end Gazda
